import Mathlib

/-!
# RideShare real-time core: a shallow embedding

This file embeds the real-time presence, location-broadcast and
drift-detection core of the RideShare backend in Lean 4 and proves (or
refutes) the specification's claims about it.

The embedded source files are:

* `backend/websocket_handler.py` — the `ConnectionManager` registry
  (`connect`, `disconnect`, `broadcast_to_ride`, `get_active_users`,
  `get_connection_count`) and the `websocket_endpoint` message loop;
* `backend/helpers.py` — `Helpers.calculate_distance` (Haversine);
* `backend/location_service.py` — the standalone
  `LocationService.calculate_distance` and `validate_location`;
* `backend/repositories/location_repository.py` — `check_drift_alerts`;
* `backend/services/location_service.py` — `update_user_location`
  (persist-then-cache-then-return pipeline used by the endpoint).

Modelling conventions:

* Python dicts are modelled as association lists (`List (key × value)`)
  for the inner levels where the code tests emptiness (`if not d:`),
  and as `key → Option value` for the two module-level dicts; lookup,
  membership, update, deletion and emptiness agree with dict semantics,
  iteration order is irrelevant to every property proved here.
* Python sets are modelled as lists without duplicates
  (`add` inserts only when absent, `discard` filters).
* WebSocket handles are opaque naturals; a send over a handle either
  succeeds or raises, abstracted by a `sendOk : Nat → Bool` oracle and
  an `Except`-valued `trySend`, mirroring `websocket.send_json` inside
  `try/except`.
* Machine floats are modelled as real numbers (for the Haversine
  arithmetic) or rationals (where only comparisons and data plumbing
  occur); timestamps, logging and SQL plumbing are dropped as they are
  irrelevant to the claims.
-/

/-! ## Association-list model of Python dicts -/

/-- Dict lookup: first binding of the key, if any (`d.get(k)` / `d[k]`). -/
def alookup {β : Type} (k : String) : List (String × β) → Option β
  | [] => none
  | p :: ps => if p.1 = k then some p.2 else alookup k ps

/-- Dict key deletion (`del d[k]` / absence of the key). -/
def aerase {β : Type} (k : String) : List (String × β) → List (String × β)
  | [] => []
  | p :: ps => if p.1 = k then aerase k ps else p :: aerase k ps

/-- Dict update `d[k] = v`: observationally, `k` now maps to `v` and every
other key is unchanged. -/
def aset {β : Type} (k : String) (v : β) (m : List (String × β)) : List (String × β) :=
  (k, v) :: aerase k m

/-- Python `set.add`: insert only when absent. -/
def listInsert {α : Type} [DecidableEq α] (a : α) (l : List α) : List α :=
  if a ∈ l then l else a :: l

/-- Python `set.discard`: remove the element if present. -/
def listDiscard {α : Type} [DecidableEq α] (a : α) : List α → List α
  | [] => []
  | x :: xs => if x = a then listDiscard a xs else x :: listDiscard a xs

theorem alookup_aerase_ne {β : Type} {r k : String} (h : r ≠ k) (m : List (String × β)) :
    alookup r (aerase k m) = alookup r m := by
  induction m with
  | nil => rfl
  | cons p ps ih =>
    have hk : ¬(k = r) := fun hh => h hh.symm
    by_cases hpk : p.1 = k
    · have hpr : p.1 ≠ r := by rw [hpk]; exact fun hh => h hh.symm
      simp [aerase, alookup, hpk, hpr, ih, hk]
    · by_cases hpr : p.1 = r
      · simp [aerase, alookup, hpk, hpr, h, hk]
      · simp [aerase, alookup, hpk, hpr, ih, hk]

theorem alookup_aset_self {β : Type} (k : String) (v : β) (m : List (String × β)) :
    alookup k (aset k v m) = some v := by
  simp [aset, alookup]

theorem alookup_aset_ne {β : Type} {r k : String} (h : r ≠ k) (v : β) (m : List (String × β)) :
    alookup r (aset k v m) = alookup r m := by
  have hk : k ≠ r := fun hh => h hh.symm
  simp only [aset, alookup, if_neg hk]
  exact alookup_aerase_ne h m

theorem mem_aerase {β : Type} {p : String × β} {k : String} {m : List (String × β)}
    (h : p ∈ aerase k m) : p ∈ m := by
  induction m with
  | nil => exact absurd h (List.not_mem_nil p)
  | cons q qs ih =>
    by_cases hq : q.1 = k
    · simp only [aerase, if_pos hq] at h
      exact List.mem_cons_of_mem q (ih h)
    · simp only [aerase, if_neg hq] at h
      rcases List.mem_cons.mp h with h | h
      · exact h ▸ List.mem_cons_self q qs
      · exact List.mem_cons_of_mem q (ih h)

theorem mem_aset {β : Type} {p : String × β} {k : String} {v : β} {m : List (String × β)}
    (h : p ∈ aset k v m) : p = (k, v) ∨ p ∈ m := by
  rcases List.mem_cons.mp h with h | h
  · exact Or.inl h
  · exact Or.inr (mem_aerase h)

theorem aset_ne_nil {β : Type} (k : String) (v : β) (m : List (String × β)) :
    aset k v m ≠ [] := by
  simp [aset]

theorem listInsert_ne_nil {α : Type} [DecidableEq α] (a : α) (l : List α) :
    listInsert a l ≠ [] := by
  unfold listInsert
  split
  · exact List.ne_nil_of_mem (by assumption)
  · exact List.cons_ne_nil _ _

theorem mem_listInsert_self {α : Type} [DecidableEq α] (a : α) (l : List α) :
    a ∈ listInsert a l := by
  unfold listInsert
  split
  · assumption
  · exact List.mem_cons_self a l

/-! ## Connection registry (`ConnectionManager` in `websocket_handler.py`) -/

/-- The mutable state of `ConnectionManager`:
`active_connections : {user_id: {ride_id: set[WebSocket]}}` and
`ride_monitors : {ride_id: set[user_id]}`. -/
structure ConnState where
  active_connections : String → Option (List (String × List Nat))
  ride_monitors : String → Option (List String)

/-- The freshly constructed manager: both dicts empty. -/
def emptyState : ConnState :=
  ⟨fun _ => none, fun _ => none⟩

/-- `ConnectionManager.connect`: initialise the user dict and ride set if
absent, add the websocket to `active_connections[user][ride]`, and add the
user to `ride_monitors[ride]`.  (The `user_connected` notification it then
broadcasts mutates registry state only through `disconnect` of failed
sends, which the reachability relation below covers as separate steps.) -/
def connect (u r : String) (w : Nat) (s : ConnState) : ConnState :=
  let userRides := (s.active_connections u).getD []
  let conns := (alookup r userRides).getD []
  let userRides2 := aset r (listInsert w conns) userRides
  let mon := (s.ride_monitors r).getD []
  ⟨fun v => if v = u then some userRides2 else s.active_connections v,
   fun q => if q = r then some (listInsert u mon) else s.ride_monitors q⟩

/-- `ConnectionManager.disconnect`: discard the websocket from
`active_connections[user][ride]`, delete the ride key when its set
empties and the user key when their dict empties; then discard the user
from `ride_monitors[ride]` (unconditionally, exactly as the source does)
and delete the ride key when that set empties. -/
def disconnect (u r : String) (w : Nat) (s : ConnState) : ConnState :=
  let ac :=
    match s.active_connections u with
    | none => s.active_connections
    | some userRides =>
      match alookup r userRides with
      | none => s.active_connections
      | some conns =>
        let conns2 := listDiscard w conns
        let userRides2 := if conns2 = [] then aerase r userRides else aset r conns2 userRides
        if userRides2 = [] then (fun v => if v = u then none else s.active_connections v)
        else (fun v => if v = u then some userRides2 else s.active_connections v)
  let rm :=
    match s.ride_monitors r with
    | none => s.ride_monitors
    | some mon =>
      let mon2 := listDiscard u mon
      if mon2 = [] then (fun q => if q = r then none else s.ride_monitors q)
      else (fun q => if q = r then some mon2 else s.ride_monitors q)
  ⟨ac, rm⟩

/-- `ConnectionManager.get_active_users`: `list(ride_monitors.get(ride, set()))`. -/
def get_active_users (r : String) (s : ConnState) : List String :=
  (s.ride_monitors r).getD []

/-- `ConnectionManager.get_connection_count`:
`len(ride_monitors.get(ride, set()))`. -/
def get_connection_count (r : String) (s : ConnState) : Nat :=
  (get_active_users r s).length

/-- `active_connections[user].get(ride, set())`, the set of this user's
open websockets for this ride (empty when either key is absent; an
absent user key and an absent ride key both yield the empty set, exactly
as the `in`-guard plus `.get(..., set())` do in the source). -/
def conns_of (s : ConnState) (u r : String) : List Nat :=
  ((s.active_connections u).bind (fun d => alookup r d)).getD []

/-! ## Reachable registry states and their structural invariant -/

/-- States of the registry reachable by any sequence of `connect` and
`disconnect` operations from the freshly constructed manager.  The
broadcast methods mutate the registry only through `disconnect` calls on
failed connections, so these two steps cover every mutation the source
performs. -/
inductive Reachable : ConnState → Prop
  | init : Reachable emptyState
  | step_connect (u r : String) (w : Nat) {s : ConnState} :
      Reachable s → Reachable (connect u r w s)
  | step_disconnect (u r : String) (w : Nat) {s : ConnState} :
      Reachable s → Reachable (disconnect u r w s)

/-- Structural well-formedness: every `ride_monitors` entry is a
non-empty set, every `active_connections` entry is a non-empty dict all
of whose per-ride sets are non-empty. -/
def WF (s : ConnState) : Prop :=
  (∀ r l, s.ride_monitors r = some l → l ≠ []) ∧
  (∀ u d, s.active_connections u = some d →
    d ≠ [] ∧ ∀ p ∈ d, p.2 ≠ ([] : List Nat))

theorem wf_empty : WF emptyState := by
  constructor
  · intro r l hl; cases hl
  · intro u d hd; cases hd

theorem wf_connect (u r : String) (w : Nat) {s : ConnState} (h : WF s) :
    WF (connect u r w s) := by
  obtain ⟨hrm, hac⟩ := h
  constructor
  · intro q l hl
    simp only [connect] at hl
    by_cases hq : q = r
    · rw [if_pos hq] at hl
      injection hl with hl
      exact hl ▸ listInsert_ne_nil _ _
    · rw [if_neg hq] at hl
      exact hrm q l hl
  · intro v d hd
    simp only [connect] at hd
    by_cases hv : v = u
    · rw [if_pos hv] at hd
      injection hd with hd
      refine hd ▸ ⟨aset_ne_nil _ _ _, ?_⟩
      intro p hp
      rcases mem_aset hp with hp | hp
      · rw [hp]
        exact listInsert_ne_nil _ _
      · cases hau : s.active_connections u with
        | none => rw [hau] at hp; simp at hp
        | some d0 => rw [hau] at hp; exact (hac u d0 hau).2 p hp
    · rw [if_neg hv] at hd
      exact hac v d hd

theorem wf_disconnect (u r : String) (w : Nat) {s : ConnState} (h : WF s) :
    WF (disconnect u r w s) := by
  obtain ⟨hrm, hac⟩ := h
  constructor
  · intro q l hl
    simp only [disconnect] at hl
    cases hmr : s.ride_monitors r with
    | none =>
      rw [hmr] at hl
      exact hrm q l hl
    | some mon =>
      rw [hmr] at hl
      simp only [] at hl
      by_cases hm2 : listDiscard u mon = []
      · rw [if_pos hm2] at hl
        by_cases hq : q = r
        · rw [if_pos hq] at hl; cases hl
        · rw [if_neg hq] at hl; exact hrm q l hl
      · rw [if_neg hm2] at hl
        by_cases hq : q = r
        · rw [if_pos hq] at hl
          injection hl with hl
          exact hl ▸ hm2
        · rw [if_neg hq] at hl; exact hrm q l hl
  · intro v d hd
    simp only [disconnect] at hd
    cases hau : s.active_connections u with
    | none =>
      rw [hau] at hd
      exact hac v d hd
    | some userRides =>
      rw [hau] at hd
      simp only [] at hd
      cases hlr : alookup r userRides with
      | none =>
        rw [hlr] at hd
        exact hac v d hd
      | some conns =>
        rw [hlr] at hd
        simp only [] at hd
        by_cases hc2 : listDiscard w conns = []
        · rw [if_pos hc2] at hd
          by_cases hur : aerase r userRides = []
          · rw [if_pos hur] at hd
            by_cases hv : v = u
            · rw [if_pos hv] at hd; cases hd
            · rw [if_neg hv] at hd; exact hac v d hd
          · rw [if_neg hur] at hd
            by_cases hv : v = u
            · rw [if_pos hv] at hd
              injection hd with hd
              refine hd ▸ ⟨hur, ?_⟩
              intro p hp
              exact (hac u userRides hau).2 p (mem_aerase hp)
            · rw [if_neg hv] at hd; exact hac v d hd
        · rw [if_neg hc2] at hd
          rw [if_neg (aset_ne_nil r (listDiscard w conns) userRides)] at hd
          by_cases hv : v = u
          · rw [if_pos hv] at hd
            injection hd with hd
            refine hd ▸ ⟨aset_ne_nil _ _ _, ?_⟩
            intro p hp
            rcases mem_aset hp with hp | hp
            · rw [hp]; exact hc2
            · exact (hac u userRides hau).2 p hp
          · rw [if_neg hv] at hd; exact hac v d hd

theorem wf_reachable {s : ConnState} (h : Reachable s) : WF s := by
  induction h with
  | init => exact wf_empty
  | step_connect u r w _ ih => exact wf_connect u r w ih
  | step_disconnect u r w _ ih => exact wf_disconnect u r w ih

/-- Disconnecting when the membership set is exactly `[u]` deletes the
ride's `ride_monitors` entry entirely. -/
theorem disconnect_last_user {s : ConnState} {u r : String} (w : Nat)
    (h : get_active_users r s = [u]) :
    (disconnect u r w s).ride_monitors r = none := by
  have hr : s.ride_monitors r = some [u] := by
    unfold get_active_users at h
    cases hmr : s.ride_monitors r with
    | none => rw [hmr] at h; simp at h
    | some mon => rw [hmr] at h; simp at h; rw [h]
  have hdisc : listDiscard u [u] = [] := by simp [listDiscard]
  simp [disconnect, hr, hdisc]

/-! ## Broadcast fan-out (`ConnectionManager.broadcast_to_ride`) -/

/-- `websocket.send_json(message)`: succeeds or raises, according to the
`sendOk` oracle describing which peers are alive. -/
def trySend (sendOk : Nat → Bool) (w : Nat) : Except String Unit :=
  if sendOk w then Except.ok () else Except.error "send failed"

/-- The inner `for websocket in ...: try: send; except: collect` loop over
one user's connections; returns (delivered, failed). -/
def sendAll (sendOk : Nat → Bool) : List Nat → List Nat × List Nat
  | [] => ([], [])
  | w :: ws =>
    let rest := sendAll sendOk ws
    match trySend sendOk w with
    | Except.ok _ => (w :: rest.1, rest.2)
    | Except.error _ => (rest.1, w :: rest.2)

/-- The outer `for user_id in self.ride_monitors[ride_id]` loop: skip the
excluded user, send to each of the user's connections for this ride,
collecting delivered handles and `(user, websocket)` failures. -/
def broadcastLoop (s : ConnState) (sendOk : Nat → Bool) (ride : String) (excl : Option String) :
    List String → List Nat × List (String × Nat)
  | [] => ([], [])
  | u :: us =>
    let rest := broadcastLoop s sendOk ride excl us
    if excl = some u then rest
    else
      let sent := sendAll sendOk (conns_of s u ride)
      (sent.1 ++ rest.1, sent.2.map (fun w => (u, w)) ++ rest.2)

/-- `ConnectionManager.broadcast_to_ride`: a no-op for unmonitored rides;
otherwise run the delivery loop over the full membership set, then (only
after the loop completes) `disconnect` every connection whose send
failed.  The `Except` result type mirrors the async method's ability to
propagate an exception; the theorems show it always returns `ok`. -/
def broadcast_to_ride (sendOk : Nat → Bool) (ride : String) (excl : Option String)
    (s : ConnState) : Except String (ConnState × List Nat) :=
  match s.ride_monitors ride with
  | none => Except.ok (s, [])
  | some mon =>
    let result := broadcastLoop s sendOk ride excl mon
    let post := result.2.foldl (fun st p => disconnect p.1 ride p.2 st) s
    Except.ok (post, result.1)

theorem alookup_aerase_self {β : Type} (k : String) (m : List (String × β)) :
    alookup k (aerase k m) = none := by
  induction m with
  | nil => rfl
  | cons p ps ih =>
    by_cases hp : p.1 = k
    · simp [aerase, hp, ih]
    · simp [aerase, alookup, hp, ih]

theorem mem_listDiscard {α : Type} [DecidableEq α] {x a : α} {l : List α}
    (h : x ∈ listDiscard a l) : x ∈ l := by
  induction l with
  | nil => exact absurd h (List.not_mem_nil x)
  | cons y ys ih =>
    by_cases hy : y = a
    · simp only [listDiscard, if_pos hy] at h
      exact List.mem_cons_of_mem y (ih h)
    · simp only [listDiscard, if_neg hy] at h
      rcases List.mem_cons.mp h with h | h
      · exact h ▸ List.mem_cons_self y ys
      · exact List.mem_cons_of_mem y (ih h)

theorem not_mem_listDiscard_self {α : Type} [DecidableEq α] (a : α) (l : List α) :
    a ∉ listDiscard a l := by
  induction l with
  | nil => simp [listDiscard]
  | cons y ys ih =>
    by_cases hy : y = a
    · simpa [listDiscard, hy] using ih
    · have hya : ¬a = y := fun hh => hy hh.symm
      simp [listDiscard, hy, ih, hya]

theorem mem_sendAll_delivered {sendOk : Nat → Bool} {conns : List Nat} {w : Nat}
    (hw : w ∈ conns) (hok : sendOk w = true) : w ∈ (sendAll sendOk conns).1 := by
  induction conns with
  | nil => exact absurd hw (List.not_mem_nil w)
  | cons x xs ih =>
    rcases List.mem_cons.mp hw with hw | hw
    · subst hw
      simp [sendAll, trySend, hok]
    · by_cases hx : sendOk x = true
      · simp only [sendAll, trySend, hx, if_pos]
        exact List.mem_cons_of_mem x (ih hw)
      · simp only [sendAll, trySend, Bool.not_eq_true] at hx ⊢
        simp only [hx]
        exact ih hw

theorem mem_sendAll_failed {sendOk : Nat → Bool} {conns : List Nat} {w : Nat}
    (hw : w ∈ conns) (hfail : sendOk w = false) : w ∈ (sendAll sendOk conns).2 := by
  induction conns with
  | nil => exact absurd hw (List.not_mem_nil w)
  | cons x xs ih =>
    rcases List.mem_cons.mp hw with hw | hw
    · subst hw
      simp [sendAll, trySend, hfail]
    · by_cases hx : sendOk x = true
      · simp only [sendAll, trySend, hx, if_pos]
        exact ih hw
      · simp only [sendAll, trySend, Bool.not_eq_true] at hx ⊢
        simp only [hx]
        exact List.mem_cons_of_mem x (ih hw)

theorem delivered_of_mem_loop {s : ConnState} {sendOk : Nat → Bool} {ride : String}
    {excl : Option String} {mons : List String} {u : String} {w : Nat}
    (hu : u ∈ mons) (hx : excl ≠ some u) (hw : w ∈ conns_of s u ride)
    (hok : sendOk w = true) :
    w ∈ (broadcastLoop s sendOk ride excl mons).1 := by
  induction mons with
  | nil => exact absurd hu (List.not_mem_nil u)
  | cons v vs ih =>
    rcases List.mem_cons.mp hu with hv | hv
    · subst hv
      simp only [broadcastLoop, if_neg (fun hh => hx hh)]
      exact List.mem_append.mpr (Or.inl (mem_sendAll_delivered hw hok))
    · by_cases hev : excl = some v
      · simpa [broadcastLoop, hev] using ih hv
      · simp only [broadcastLoop, if_neg hev]
        exact List.mem_append.mpr (Or.inr (ih hv))

theorem failed_of_mem_loop {s : ConnState} {sendOk : Nat → Bool} {ride : String}
    {excl : Option String} {mons : List String} {u : String} {w : Nat}
    (hu : u ∈ mons) (hx : excl ≠ some u) (hw : w ∈ conns_of s u ride)
    (hfail : sendOk w = false) :
    (u, w) ∈ (broadcastLoop s sendOk ride excl mons).2 := by
  induction mons with
  | nil => exact absurd hu (List.not_mem_nil u)
  | cons v vs ih =>
    rcases List.mem_cons.mp hu with hv | hv
    · subst hv
      simp only [broadcastLoop, if_neg (fun hh => hx hh)]
      refine List.mem_append.mpr (Or.inl ?_)
      exact List.mem_map.mpr ⟨w, mem_sendAll_failed hw hfail, rfl⟩
    · by_cases hev : excl = some v
      · simpa [broadcastLoop, hev] using ih hv
      · simp only [broadcastLoop, if_neg hev]
        exact List.mem_append.mpr (Or.inr (ih hv))

/-- A `disconnect` never adds a websocket to any user's connection set. -/
theorem mem_conns_of_disconnect {s : ConnState} {a b : String} {c : Nat}
    {u r : String} {x : Nat} (h : x ∈ conns_of (disconnect a b c s) u r) :
    x ∈ conns_of s u r := by
  unfold conns_of at h ⊢
  simp only [disconnect] at h
  cases hau : s.active_connections a with
  | none =>
    simp only [hau] at h
    exact h
  | some userRides =>
    simp only [hau] at h
    cases hlr : alookup b userRides with
    | none =>
      simp only [hlr] at h
      exact h
    | some conns =>
      simp only [hlr] at h
      by_cases hc2 : listDiscard c conns = []
      all_goals by_cases hv : u = a
      · rw [if_pos hc2] at h
        by_cases hur : aerase b userRides = []
        · rw [if_pos hur, if_pos hv] at h
          simp at h
        · rw [if_neg hur, if_pos hv] at h
          simp only [Option.some_bind] at h
          rw [hv, hau]
          simp only [Option.some_bind]
          by_cases hrb : r = b
          · rw [hrb, alookup_aerase_self] at h
            simp at h
          · rwa [alookup_aerase_ne hrb] at h
      · rw [if_pos hc2] at h
        by_cases hur : aerase b userRides = []
        · rw [if_pos hur, if_neg hv] at h
          exact h
        · rw [if_neg hur, if_neg hv] at h
          exact h
      · rw [if_neg hc2, if_neg (aset_ne_nil b (listDiscard c conns) userRides),
            if_pos hv] at h
        simp only [Option.some_bind] at h
        rw [hv, hau]
        simp only [Option.some_bind]
        by_cases hrb : r = b
        · rw [hrb, alookup_aset_self] at h
          rw [hrb, hlr]
          exact mem_listDiscard (by simpa using h)
        · rwa [alookup_aset_ne hrb] at h
      · rw [if_neg hc2, if_neg (aset_ne_nil b (listDiscard c conns) userRides),
            if_neg hv] at h
        exact h

/-- After `disconnect a b c`, the websocket `c` is no longer among `a`'s
connections for ride `b`. -/
theorem not_mem_conns_of_disconnect_self (s : ConnState) (a b : String) (c : Nat) :
    c ∉ conns_of (disconnect a b c s) a b := by
  unfold conns_of
  simp only [disconnect]
  cases hau : s.active_connections a with
  | none =>
    simp only [hau]
    simp
  | some userRides =>
    simp only [hau]
    cases hlr : alookup b userRides with
    | none =>
      simp only [hlr, hau]
      simp [hlr]
    | some conns =>
      simp only [hlr]
      by_cases hc2 : listDiscard c conns = []
      · rw [if_pos hc2]
        by_cases hur : aerase b userRides = []
        · rw [if_pos hur, if_pos rfl]
          simp
        · rw [if_neg hur, if_pos rfl]
          simp [alookup_aerase_self]
      · rw [if_neg hc2, if_neg (aset_ne_nil b (listDiscard c conns) userRides), if_pos rfl]
        simp only [Option.some_bind, alookup_aset_self]
        simpa using not_mem_listDiscard_self c conns

theorem fold_disconnect_preserves_not_mem {ride : String} {u : String} {w : Nat}
    (L : List (String × Nat)) (st : ConnState) (h : w ∉ conns_of st u ride) :
    w ∉ conns_of (L.foldl (fun st p => disconnect p.1 ride p.2 st) st) u ride := by
  induction L generalizing st with
  | nil => exact h
  | cons p ps ih =>
    exact ih _ (fun hmem => h (mem_conns_of_disconnect hmem))

theorem fold_disconnect_removes {ride : String} {u : String} {w : Nat}
    (L : List (String × Nat)) (st : ConnState) (h : (u, w) ∈ L) :
    w ∉ conns_of (L.foldl (fun st p => disconnect p.1 ride p.2 st) st) u ride := by
  induction L generalizing st with
  | nil => exact absurd h (List.not_mem_nil _)
  | cons p ps ih =>
    rcases List.mem_cons.mp h with hp | hp
    · subst hp
      exact fold_disconnect_preserves_not_mem ps _
        (not_mem_conns_of_disconnect_self st u ride w)
    · exact ih _ hp

/-! ## Claim theorems about the connection registry -/

/-- **C1** (evidence of the code bug): after two `connect` calls for the
same (user, ride) pair with distinct connection handles, starting from a
state with no connections for that ride, the registry really holds two
open connections for the user, and `get_active_users` contains exactly
one entry for that user — but `get_connection_count` returns 1, not 2:
it takes the length of the `ride_monitors` user set, contradicting its
own docstring ("Get number of active connections in a ride") and the
claim. -/
theorem connection_count_counts_users :
    conns_of (connect "u" "r" 1 (connect "u" "r" 0 emptyState)) "u" "r" = [1, 0] ∧
    get_active_users "r" (connect "u" "r" 1 (connect "u" "r" 0 emptyState)) = ["u"] ∧
    get_connection_count "r" (connect "u" "r" 1 (connect "u" "r" 0 emptyState)) = 1 := by
  decide

/-- **C2** (evidence of the code bug): after the user opens two
connections for the ride and closes only the first one, the user still
has the open connection `1` registered for the ride, yet
`get_active_users` no longer lists the user: `disconnect` discards the
user from `ride_monitors` unconditionally instead of only on the last
connection, so the membership set is not equivalent to "has at least one
open connection". -/
theorem disconnect_drops_member_with_open_connection :
    conns_of (disconnect "u" "r" 0 (connect "u" "r" 1 (connect "u" "r" 0 emptyState)))
        "u" "r" = [1] ∧
    get_active_users "r"
        (disconnect "u" "r" 0 (connect "u" "r" 1 (connect "u" "r" 0 emptyState))) = [] := by
  decide

/-- **C5**: during `broadcast_to_ride`, a send failure on one connection
is caught individually: the call still returns normally (`Except.ok`),
every live connection of every non-excluded member — judged against the
registry state as it was when the broadcast started, i.e. before any
reaping — still receives the message, and every connection whose send
failed is disconnected from the registry only after the delivery loop
over all recipients has completed. -/
theorem broadcast_partial_failure_isolation
    (s : ConnState) (sendOk : Nat → Bool) (ride : String) (excl : Option String)
    (u : String) (w : Nat)
    (hu : u ∈ get_active_users ride s) (hx : excl ≠ some u) (hw : w ∈ conns_of s u ride) :
    ∃ post delivered,
      broadcast_to_ride sendOk ride excl s = Except.ok (post, delivered) ∧
      (sendOk w = true → w ∈ delivered) ∧
      (sendOk w = false → w ∉ conns_of post u ride) := by
  have hmon : ∃ mon, s.ride_monitors ride = some mon ∧ u ∈ mon := by
    unfold get_active_users at hu
    cases hmr : s.ride_monitors ride with
    | none => rw [hmr] at hu; simp at hu
    | some mon => rw [hmr] at hu; exact ⟨mon, rfl, by simpa using hu⟩
  obtain ⟨mon, hmr, humon⟩ := hmon
  refine ⟨((broadcastLoop s sendOk ride excl mon).2).foldl
            (fun st p => disconnect p.1 ride p.2 st) s,
          (broadcastLoop s sendOk ride excl mon).1, ?_, ?_, ?_⟩
  · simp only [broadcast_to_ride, hmr]
  · intro hok
    exact delivered_of_mem_loop humon hx hw hok
  · intro hfail
    exact fold_disconnect_removes _ s (failed_of_mem_loop humon hx hw hfail)

/-- Witness for C5: the spec's own test scenario — user `"u"` holds the
dead connection `0`, user `"v"` the live connection `1`; the live
connection is delivered to and the dead one is reaped, in one
exception-free call. -/
theorem broadcast_partial_failure_isolation_witness :
    (∃ post delivered,
      broadcast_to_ride (fun w => w == 1) "r" none
          (connect "v" "r" 1 (connect "u" "r" 0 emptyState)) = Except.ok (post, delivered) ∧
      (((1 : Nat) == 1) = true → 1 ∈ delivered)) ∧
    (∃ post delivered,
      broadcast_to_ride (fun w => w == 1) "r" none
          (connect "v" "r" 1 (connect "u" "r" 0 emptyState)) = Except.ok (post, delivered) ∧
      (((0 : Nat) == 1) = false → 0 ∉ conns_of post "u" "r")) := by
  constructor
  · obtain ⟨post, delivered, heq, hok, _⟩ :=
      broadcast_partial_failure_isolation
        (connect "v" "r" 1 (connect "u" "r" 0 emptyState)) (fun w => w == 1) "r" none
        "v" 1 (by decide) (by decide) (by decide)
    exact ⟨post, delivered, heq, hok⟩
  · obtain ⟨post, delivered, heq, _, hfail⟩ :=
      broadcast_partial_failure_isolation
        (connect "v" "r" 1 (connect "u" "r" 0 emptyState)) (fun w => w == 1) "r" none
        "u" 0 (by decide) (by decide) (by decide)
    exact ⟨post, delivered, heq, hfail⟩

/-- **C7**: in every reachable registry state, a ride's `ride_monitors`
entry exists iff its membership set is non-empty; disconnecting the last
user of a ride deletes the ride's entry entirely and a subsequent
`get_connection_count` query returns 0; and no empty per-user dicts or
per-ride sets remain inside `active_connections` either. -/
theorem ride_entry_iff_nonempty {s : ConnState} (h : Reachable s) :
    (∀ r, (s.ride_monitors r).isSome ↔ get_active_users r s ≠ []) ∧
    (∀ u r (w : Nat), get_active_users r s = [u] →
      (disconnect u r w s).ride_monitors r = none ∧
      get_connection_count r (disconnect u r w s) = 0) ∧
    (∀ u d, s.active_connections u = some d →
      d ≠ [] ∧ ∀ p ∈ d, p.2 ≠ ([] : List Nat)) := by
  obtain ⟨hrm, hac⟩ := wf_reachable h
  refine ⟨?_, ?_, hac⟩
  · intro r
    constructor
    · intro hs
      cases hmr : s.ride_monitors r with
      | none => rw [hmr] at hs; cases hs
      | some l =>
        unfold get_active_users
        rw [hmr]
        simpa using hrm r l hmr
    · intro hne
      cases hmr : s.ride_monitors r with
      | none =>
        unfold get_active_users at hne
        rw [hmr] at hne
        simp at hne
      | some l => simp [hmr]
  · intro u r w hlast
    have h1 := disconnect_last_user w hlast
    refine ⟨h1, ?_⟩
    unfold get_connection_count get_active_users
    rw [h1]
    rfl

/-- Witness for C7, at the reachable state with one user connected once:
the ride's entry exists, and disconnecting that last user removes the
entry and drops the count to 0. -/
theorem ride_entry_iff_nonempty_witness :
    ((connect "u" "r" 0 emptyState).ride_monitors "r").isSome ∧
    (disconnect "u" "r" 0 (connect "u" "r" 0 emptyState)).ride_monitors "r" = none ∧
    get_connection_count "r" (disconnect "u" "r" 0 (connect "u" "r" 0 emptyState)) = 0 := by
  have hmain := ride_entry_iff_nonempty (Reachable.step_connect "u" "r" 0 Reachable.init)
  have hlast : get_active_users "r" (connect "u" "r" 0 emptyState) = ["u"] := by decide
  exact ⟨(hmain.1 "r").mpr (by decide),
         (hmain.2.1 "u" "r" 0 hlast).1,
         (hmain.2.1 "u" "r" 0 hlast).2⟩

/-! ## Distance Utility (`helpers.py` and `location_service.py`) -/

/-- `math.radians`: degrees to radians. -/
noncomputable def radians (x : ℝ) : ℝ :=
  x * (Real.pi / 180)

/-- `math.atan2 y x`: the angle of the point `(x, y)`, by the usual
piecewise definition over `Real.arctan`.  Both call sites below pass
`y = √a ≥ 0` and `x = √(1−a) ≥ 0`, so only the first and last branches
are ever exercised there. -/
noncomputable def atan2 (y x : ℝ) : ℝ :=
  if 0 < x then Real.arctan (y / x)
  else if x < 0 ∧ 0 ≤ y then Real.arctan (y / x) + Real.pi
  else if x < 0 ∧ y < 0 then Real.arctan (y / x) - Real.pi
  else if x = 0 ∧ 0 < y then Real.pi / 2
  else if x = 0 ∧ y < 0 then -(Real.pi / 2)
  else 0

namespace Helpers

/-- `Helpers.calculate_distance` (`helpers.py`): Haversine distance in
kilometers with Earth radius `R = 6371`, converting via `math.radians`
and squaring with `** 2`. -/
noncomputable def calculate_distance (lat1 lon1 lat2 lon2 : ℝ) : ℝ :=
  let R : ℝ := 6371
  let lat1_rad := radians lat1
  let lat2_rad := radians lat2
  let delta_lat := radians (lat2 - lat1)
  let delta_lon := radians (lon2 - lon1)
  let a := Real.sin (delta_lat / 2) ^ 2 +
    Real.cos lat1_rad * Real.cos lat2_rad * Real.sin (delta_lon / 2) ^ 2
  let c := 2 * atan2 (Real.sqrt a) (Real.sqrt (1 - a))
  R * c

end Helpers

namespace LocationService

/-- The standalone `LocationService.calculate_distance`
(`location_service.py`): Haversine with `R = 6371`, converting degrees
by multiplying with `math.pi / 180` and squaring by self-multiplication. -/
noncomputable def calculate_distance (lat1 lon1 lat2 lon2 : ℝ) : ℝ :=
  let R : ℝ := 6371
  let d_lat := (lat2 - lat1) * (Real.pi / 180)
  let d_lon := (lon2 - lon1) * (Real.pi / 180)
  let a := Real.sin (d_lat / 2) * Real.sin (d_lat / 2) +
    Real.cos (lat1 * (Real.pi / 180)) * Real.cos (lat2 * (Real.pi / 180)) *
    Real.sin (d_lon / 2) * Real.sin (d_lon / 2)
  let c := 2 * atan2 (Real.sqrt a) (Real.sqrt (1 - a))
  R * c

/-- `LocationService.validate_location` (`location_service.py`): range
check on latitude and longitude.  Coordinates are modelled as rationals
(machine floats are rationals and only order comparisons occur here);
the `isinstance` guard is outside the numeric model.  This function has
no caller anywhere in the repository. -/
def validate_location (latitude longitude : ℚ) : Bool :=
  if latitude < -90 ∨ latitude > 90 then false
  else if longitude < -180 ∨ longitude > 180 then false
  else true

end LocationService

/-- The two Haversine implementations agree pointwise (helper shared by
several theorems below). -/
theorem hdist_eq_ldist (lat1 lon1 lat2 lon2 : ℝ) :
    Helpers.calculate_distance lat1 lon1 lat2 lon2
      = LocationService.calculate_distance lat1 lon1 lat2 lon2 := by
  simp only [Helpers.calculate_distance, LocationService.calculate_distance, radians, pow_two]
  ring_nf

theorem hdist_self (lat lon : ℝ) : Helpers.calculate_distance lat lon lat lon = 0 := by
  simp only [Helpers.calculate_distance, radians]
  rw [sub_self, sub_self, zero_mul, zero_div, Real.sin_zero]
  norm_num [atan2, Real.arctan_zero]

theorem hdist_symm (lat1 lon1 lat2 lon2 : ℝ) :
    Helpers.calculate_distance lat1 lon1 lat2 lon2
      = Helpers.calculate_distance lat2 lon2 lat1 lon1 := by
  simp only [Helpers.calculate_distance, radians]
  have hlat : Real.sin ((lat1 - lat2) * (Real.pi / 180) / 2) ^ 2
      = Real.sin ((lat2 - lat1) * (Real.pi / 180) / 2) ^ 2 := by
    have h : (lat1 - lat2) * (Real.pi / 180) / 2
        = -((lat2 - lat1) * (Real.pi / 180) / 2) := by ring
    rw [h, Real.sin_neg, neg_sq]
  have hlon : Real.sin ((lon1 - lon2) * (Real.pi / 180) / 2) ^ 2
      = Real.sin ((lon2 - lon1) * (Real.pi / 180) / 2) ^ 2 := by
    have h : (lon1 - lon2) * (Real.pi / 180) / 2
        = -((lon2 - lon1) * (Real.pi / 180) / 2) := by ring
    rw [h, Real.sin_neg, neg_sq]
  rw [hlat, hlon,
    mul_comm (Real.cos (lat2 * (Real.pi / 180))) (Real.cos (lat1 * (Real.pi / 180)))]

/-- **C9**: for both distance implementations, `distance(p, p) = 0` and
`distance(a, b) = distance(b, a)` (Haversine, `R = 6371` km), over the
real-number model of float arithmetic. -/
theorem calculate_distance_self_and_symm :
    (∀ lat lon : ℝ, Helpers.calculate_distance lat lon lat lon = 0) ∧
    (∀ lat1 lon1 lat2 lon2 : ℝ,
      Helpers.calculate_distance lat1 lon1 lat2 lon2
        = Helpers.calculate_distance lat2 lon2 lat1 lon1) ∧
    (∀ lat lon : ℝ, LocationService.calculate_distance lat lon lat lon = 0) ∧
    (∀ lat1 lon1 lat2 lon2 : ℝ,
      LocationService.calculate_distance lat1 lon1 lat2 lon2
        = LocationService.calculate_distance lat2 lon2 lat1 lon1) := by
  refine ⟨hdist_self, hdist_symm, ?_, ?_⟩
  · intro lat lon
    rw [← hdist_eq_ldist]
    exact hdist_self lat lon
  · intro lat1 lon1 lat2 lon2
    rw [← hdist_eq_ldist, ← hdist_eq_ldist]
    exact hdist_symm lat1 lon1 lat2 lon2

/-- **C10**: `Helpers.calculate_distance` and the standalone
`LocationService.calculate_distance` compute the same function on every
input, in the real-number model: both are Haversine with `R = 6371`,
one converting degrees via `math.radians` and the other via
multiplication by `π/180`. -/
theorem distance_implementations_agree (lat1 lon1 lat2 lon2 : ℝ) :
    Helpers.calculate_distance lat1 lon1 lat2 lon2
      = LocationService.calculate_distance lat1 lon1 lat2 lon2 :=
  hdist_eq_ldist lat1 lon1 lat2 lon2

/-! ## Drift Detector (`LocationRepository.check_drift_alerts`) -/

/-- A row of the `User ⋈ RideParticipant` table as the drift query sees
it: the participant's status in the ride and the user's (nullable)
current location. -/
structure RideUser where
  id : String
  first_name : String
  last_name : String
  participant_status : String
  current_latitude : Option ℝ
  current_longitude : Option ℝ

/-- A participant returned by the drift query: accepted and located. -/
structure LocatedRow where
  id : String
  first_name : String
  last_name : String
  lat : ℝ
  lon : ℝ

/-- A persisted `DriftAlert` model row (timestamps dropped). -/
structure DriftAlert where
  ride_id : String
  user_id : String
  distance : ℝ
  latitude : ℝ
  longitude : ℝ

/-- One entry of the `alerts` list `check_drift_alerts` returns
(timestamp dropped). -/
structure AlertMsg where
  user_id : String
  user_name : String
  distance_from_group : ℝ
  max_allowed_distance : ℝ
  latitude : ℝ
  longitude : ℝ

/-- The SQL query of `check_drift_alerts`: all participants of the ride
whose status is `"accepted"` and whose current latitude and longitude
are both non-NULL. -/
def locatedAccepted (ps : List RideUser) : List LocatedRow :=
  ps.filterMap fun p =>
    if p.participant_status = "accepted" then
      match p.current_latitude, p.current_longitude with
      | some la, some lo => some ⟨p.id, p.first_name, p.last_name, la, lo⟩
      | _, _ => none
    else none

/-- `settings.drift_alert_distance_km` (`config.py`): default 2.0 km. -/
noncomputable def drift_alert_distance_km : ℝ := 2

/-- Python `round(x, 2)`, modelled with Mathlib's `round` (round-half-up
instead of float round-half-even; the two differ only at exact ties,
which no claim depends on). -/
noncomputable def round2 (x : ℝ) : ℝ :=
  ((round (x * 100) : ℤ) : ℝ) / 100

/-- Does this participant drift beyond the threshold from the centroid
(`if distance > settings.drift_alert_distance_km`)? -/
noncomputable def exceeds (thr cla clo : ℝ) (p : LocatedRow) : Bool :=
  decide (thr < Helpers.calculate_distance cla clo p.lat p.lon)

/-- The `DriftAlert(...)` row the loop adds to the session. -/
noncomputable def mkDriftAlert (rid : String) (cla clo : ℝ) (p : LocatedRow) : DriftAlert :=
  ⟨rid, p.id, Helpers.calculate_distance cla clo p.lat p.lon, p.lat, p.lon⟩

/-- The dict the loop appends to `alerts`. -/
noncomputable def mkAlertMsg (thr cla clo : ℝ) (p : LocatedRow) : AlertMsg :=
  ⟨p.id, p.first_name ++ " " ++ p.last_name,
   round2 (Helpers.calculate_distance cla clo p.lat p.lon), thr, p.lat, p.lon⟩

/-- `LocationRepository.check_drift_alerts`, given the ride's joined
participant rows, the configured threshold and the already-persisted
alerts `db`: fetch the accepted located participants; if fewer than two,
return the empty list; otherwise average their latitudes and longitudes
into the centre point and, for every participant whose Haversine
distance from the centre exceeds the threshold, persist a `DriftAlert`
and append an alert dict.  Returns (persisted alerts, returned list). -/
noncomputable def check_drift_alerts (rid : String) (participants : List RideUser)
    (threshold : ℝ) (db : List DriftAlert) : List DriftAlert × List AlertMsg :=
  let located := locatedAccepted participants
  if located.length < 2 then (db, [])
  else
    let center_lat := (located.map (fun p => p.lat)).sum / (located.length : ℝ)
    let center_lon := (located.map (fun p => p.lon)).sum / (located.length : ℝ)
    located.foldl
      (fun acc p =>
        if exceeds threshold center_lat center_lon p then
          (acc.1 ++ [mkDriftAlert rid center_lat center_lon p],
           acc.2 ++ [mkAlertMsg threshold center_lat center_lon p])
        else acc)
      (db, [])

theorem drift_loop_eq (rid : String) (thr cla clo : ℝ) (l : List LocatedRow)
    (db0 : List DriftAlert) (ms0 : List AlertMsg) :
    l.foldl
      (fun acc p =>
        if exceeds thr cla clo p then
          (acc.1 ++ [mkDriftAlert rid cla clo p], acc.2 ++ [mkAlertMsg thr cla clo p])
        else acc)
      (db0, ms0)
    = (db0 ++ (l.filter (exceeds thr cla clo)).map (mkDriftAlert rid cla clo),
       ms0 ++ (l.filter (exceeds thr cla clo)).map (mkAlertMsg thr cla clo)) := by
  induction l generalizing db0 ms0 with
  | nil => simp
  | cons p ps ih =>
    by_cases hp : exceeds thr cla clo p = true
    · simp only [List.foldl_cons, if_pos hp, List.filter_cons, hp, if_true, List.map_cons,
        ih, List.append_assoc, List.singleton_append]
    · have hp2 : exceeds thr cla clo p = false := by simpa using hp
      simp only [List.foldl_cons, if_neg hp, List.filter_cons, hp2,
        Bool.false_eq_true, if_false, ih]

/-- **C3**: whenever at least two participants are accepted and located,
`check_drift_alerts` computes the centre as the arithmetic mean of their
latitudes and of their longitudes, and both persists and returns exactly
one alert for each participant whose Haversine distance from that centre
strictly exceeds the threshold, and none for any other participant. -/
theorem check_drift_alerts_characterization (rid : String) (participants : List RideUser)
    (thr : ℝ) (db : List DriftAlert)
    (h2 : 2 ≤ (locatedAccepted participants).length) :
    check_drift_alerts rid participants thr db =
      (db ++ ((locatedAccepted participants).filter
          (exceeds thr
            (((locatedAccepted participants).map (fun p => p.lat)).sum /
              ((locatedAccepted participants).length : ℝ))
            (((locatedAccepted participants).map (fun p => p.lon)).sum /
              ((locatedAccepted participants).length : ℝ)))).map
          (mkDriftAlert rid
            (((locatedAccepted participants).map (fun p => p.lat)).sum /
              ((locatedAccepted participants).length : ℝ))
            (((locatedAccepted participants).map (fun p => p.lon)).sum /
              ((locatedAccepted participants).length : ℝ))),
       ((locatedAccepted participants).filter
          (exceeds thr
            (((locatedAccepted participants).map (fun p => p.lat)).sum /
              ((locatedAccepted participants).length : ℝ))
            (((locatedAccepted participants).map (fun p => p.lon)).sum /
              ((locatedAccepted participants).length : ℝ)))).map
          (mkAlertMsg thr
            (((locatedAccepted participants).map (fun p => p.lat)).sum /
              ((locatedAccepted participants).length : ℝ))
            (((locatedAccepted participants).map (fun p => p.lon)).sum /
              ((locatedAccepted participants).length : ℝ)))) := by
  unfold check_drift_alerts
  rw [if_neg (by omega : ¬(locatedAccepted participants).length < 2)]
  exact drift_loop_eq rid thr _ _ (locatedAccepted participants) db []

/-- **C4**: with fewer than two accepted, located participants,
`check_drift_alerts` returns the empty alert list and persists nothing
(the stored alerts are exactly the ones that were already there). -/
theorem check_drift_alerts_lt_two (rid : String) (participants : List RideUser)
    (thr : ℝ) (db : List DriftAlert)
    (h : (locatedAccepted participants).length < 2) :
    check_drift_alerts rid participants thr db = (db, []) := by
  unfold check_drift_alerts
  rw [if_pos h]

/-- Two accepted, located participants: the smallest input on which the
drift loop runs at all. -/
def driftWitnessRows : List RideUser :=
  [⟨"a", "Ann", "Ak", "accepted", some 0, some 0⟩,
   ⟨"b", "Bob", "Bk", "accepted", some 0, some 0⟩]

/-- Witness for C3 at a concrete two-participant ride with the default
threshold. -/
theorem check_drift_alerts_characterization_witness :
    2 ≤ (locatedAccepted driftWitnessRows).length ∧
    check_drift_alerts "ride1" driftWitnessRows drift_alert_distance_km [] =
      ([] ++ ((locatedAccepted driftWitnessRows).filter
          (exceeds drift_alert_distance_km
            (((locatedAccepted driftWitnessRows).map (fun p => p.lat)).sum /
              ((locatedAccepted driftWitnessRows).length : ℝ))
            (((locatedAccepted driftWitnessRows).map (fun p => p.lon)).sum /
              ((locatedAccepted driftWitnessRows).length : ℝ)))).map
          (mkDriftAlert "ride1"
            (((locatedAccepted driftWitnessRows).map (fun p => p.lat)).sum /
              ((locatedAccepted driftWitnessRows).length : ℝ))
            (((locatedAccepted driftWitnessRows).map (fun p => p.lon)).sum /
              ((locatedAccepted driftWitnessRows).length : ℝ))),
       ((locatedAccepted driftWitnessRows).filter
          (exceeds drift_alert_distance_km
            (((locatedAccepted driftWitnessRows).map (fun p => p.lat)).sum /
              ((locatedAccepted driftWitnessRows).length : ℝ))
            (((locatedAccepted driftWitnessRows).map (fun p => p.lon)).sum /
              ((locatedAccepted driftWitnessRows).length : ℝ)))).map
          (mkAlertMsg drift_alert_distance_km
            (((locatedAccepted driftWitnessRows).map (fun p => p.lat)).sum /
              ((locatedAccepted driftWitnessRows).length : ℝ))
            (((locatedAccepted driftWitnessRows).map (fun p => p.lon)).sum /
              ((locatedAccepted driftWitnessRows).length : ℝ)))) :=
  ⟨by decide,
   check_drift_alerts_characterization "ride1" driftWitnessRows drift_alert_distance_km []
     (by decide)⟩

/-- Witness for C4: a single located accepted participant yields no
alert and no write. -/
theorem check_drift_alerts_lt_two_witness :
    (locatedAccepted [⟨"a", "Ann", "Ak", "accepted", some 0, some 0⟩]).length < 2 ∧
    check_drift_alerts "ride1" [⟨"a", "Ann", "Ak", "accepted", some 0, some 0⟩]
        drift_alert_distance_km [] = ([], []) :=
  ⟨by decide,
   check_drift_alerts_lt_two "ride1" [⟨"a", "Ann", "Ak", "accepted", some 0, some 0⟩]
     drift_alert_distance_km [] (by decide)⟩

/-! ## Location ingest over the websocket
(`websocket_endpoint`, `"location_update"` branch) -/

/-- The observable effects of handling one inbound `location_update`
message: the location samples written to storage, whether the Redis
"current location" cache entry was set, the message types broadcast to
the ride channel, the message types sent back to the sending socket
only, and whether the handler closed the connection. -/
structure WsEffects where
  persisted : List (ℚ × ℚ × Option ℚ)
  cacheUpdated : Bool
  broadcasts : List String
  replies : List String
  closed : Bool
deriving DecidableEq

/-- The `"location_update"` branch of `websocket_endpoint` composed with
`LocationService.update_user_location`: reject only *missing* latitude
or longitude with an inline error; otherwise persist the sample and
update the cache (`persist_ok` abstracts the storage collaborator's
outcome; on failure the raised exception is caught and answered with an
inline `"error"` reply, nothing else having happened), then broadcast
`location_update` to the ride, then run the drift check (`drift`
abstracts its outcome: alerts found / none / raised), broadcasting
`drift_alert` when alerts were found and replying `"error"` when the
check raised.  The connection is never closed by this branch.  Note that
no coordinate *range* validation occurs anywhere on this path. -/
def handle_location_update (lat? lon? acc? : Option ℚ) (persist_ok : Bool)
    (drift : Except Unit Bool) : WsEffects :=
  match lat?, lon? with
  | some lat, some lon =>
    if persist_ok then
      match drift with
      | Except.ok true =>
        ⟨[(lat, lon, acc?)], true, ["location_update", "drift_alert"], [], false⟩
      | Except.ok false =>
        ⟨[(lat, lon, acc?)], true, ["location_update"], [], false⟩
      | Except.error _ =>
        ⟨[(lat, lon, acc?)], true, ["location_update"], ["error"], false⟩
    else
      ⟨[], false, [], ["error"], false⟩
  | _, _ => ⟨[], false, [], ["error"], false⟩

/-- **C6** (evidence of the code bug): latitude 200 lies outside
[-90, 90] and the repository's own `validate_location` rejects it — but
that validator has no caller, and the websocket ingest path accepts the
message: the out-of-range sample is persisted, the cache is updated and
the update is broadcast to the ride, with no validation error returned
to the sender. -/
theorem location_update_skips_range_validation :
    LocationService.validate_location 200 0 = false ∧
    handle_location_update (some 200) (some 0) none true (Except.ok false)
      = ⟨[(200, 0, none)], true, ["location_update"], [], false⟩ := by
  constructor
  · decide
  · rfl

/-- **C8**: whenever the persistence write fails, ingest aborts before
any broadcast: no sample is stored, the cache is untouched, no
`location_update` (or any other) message is broadcast to any ride
member, the failure is surfaced to the caller as an inline `"error"`
result, and the connection stays open — independently of the
coordinates, the accuracy field and the drift-check outcome. -/
theorem ingest_aborts_on_persistence_failure (lat lon : ℚ) (acc : Option ℚ)
    (drift : Except Unit Bool) :
    handle_location_update (some lat) (some lon) acc false drift
      = ⟨[], false, [], ["error"], false⟩ := rfl
